/-
Verification of the Capacity Orchestration Engine of the Spotify-Automation
repository, as described by its natural-language specification.

The JavaScript source is embedded shallowly:

* JS `Map` objects (the live session map, the proxy pool) are modelled as
  insertion-ordered lists of entries; `Map.get` / `Map.set` / `Map.delete`
  become `jsMapGet` / `jsMapSet` / `jsMapDelete`, keyed by the entry's `id`
  field exactly as the source keys its maps.
* Timestamps (`new Date()`, `Date.now()`) are modelled as an abstract clock
  value of type `Nat` passed to each operation.
* JS numbers holding counts are modelled as `Int` where the source can push
  them below zero (proxy `assignedSessions`, clamped with `Math.max(0, ·)`)
  and as `Nat` where they are pure counters; capacity fractions and the
  success rate are modelled as `ℚ`.
* Functions whose only effect is logging are dropped; the structured events
  emitted through `monitoringSystem.recordSessionEvent` are kept as an
  append-only event list, because the specification treats them as
  observable.
* Asynchronous callbacks (`setTimeout` health re-checks) are modelled as
  separate step functions applied later, with the probe outcome supplied as
  an argument in place of the random health check.
-/
import Mathlib

attribute [local semireducible] Rat.mul Rat.add Rat.sub Rat.inv

namespace Spotify

/-! ## JavaScript `Map` model

A JS `Map` keyed by string ids, with insertion order preserved:
`set` overwrites the first entry with the same key in place and appends a
fresh key at the end; `delete` removes the entry with the key. -/

/-- `Map.get key`: the first entry whose key matches. -/
def jsMapGet (key : α → String) (m : List α) (i : String) : Option α :=
  m.find? (fun t => key t == i)

/-- `Map.set key value`: overwrite in place if the key is present, else append. -/
def jsMapSet (key : α → String) : List α → α → List α
  | [], x => [x]
  | t :: ts, x => if key t == key x then x :: ts else t :: jsMapSet key ts x

/-- `Map.delete key`: drop the entry with the key, if present. -/
def jsMapDelete (key : α → String) : List α → String → List α
  | [], _ => []
  | t :: ts, i => if key t == i then ts else t :: jsMapDelete key ts i

/-! ## Session data model (src/src/session-manager.js)

`SpotifySession` objects.  Only the fields the specification's claims touch
are carried: `id`, `account`, `status` (a status string, `'initializing'`,
`'running'`, …), `startTime`, `lastUpdate`, the `stats` counters, and the
`endTime` / `duration` fields written by `cleanupSession`.  The remaining
fields (`proxy`, `behavior`, `schedule`, `lastHeartbeat`, `createdAt`) play
no role in any claim. -/

/-- The `stats` sub-object of a `SpotifySession`. -/
structure SessionStats where
  successfulStreams : Nat
  failedStreams : Nat
  totalPlaytime : Nat
  deriving Repr, DecidableEq

/-- A `SpotifySession` record (the subset of fields the claims mention). -/
structure Session where
  id : String
  account : String
  status : String
  startTime : Nat
  lastUpdate : Nat
  stats : SessionStats
  endTime : Option Nat := none
  duration : Option Int := none
  deriving Repr, DecidableEq

/-- `SpotifySession.updateStatus` (session-manager.js lines 47-50): set the
status and refresh `lastUpdate`; no validation of any kind is performed. -/
def Session.updateStatus (s : Session) (newStatus : String) (now : Nat) : Session :=
  { s with status := newStatus, lastUpdate := now }

/-- A structured event recorded through `monitoringSystem.recordSessionEvent`.
Only the detail fields the claims look at are kept. -/
structure SessionEvent where
  sessionId : String
  event : String
  oldStatus : String := ""
  newStatus : String := ""
  reason : String := ""
  deriving Repr, DecidableEq

/-- The mutable state owned by `SessionManager`: the live `sessions` map, the
persisted per-session records (`saveSessionData` writes, one JSON file per
session id, modelled as a map keyed by id), and the append-only event log. -/
structure ManagerState where
  sessions : List Session
  store : List Session
  events : List SessionEvent
  deriving Repr, DecidableEq

/-- `SessionManager.saveSessionData`: persist the record under its id
(overwrites the session's file). -/
def saveSessionData (store : List Session) (s : Session) : List Session :=
  jsMapSet Session.id store s

/-- `SessionManager.updateSessionStatus` (session-manager.js lines 184-205):
look the session up in the live map; if present, apply
`session.updateStatus(status)`, write it back to the map, persist it, and
record a `status_changed` event.  If the session is unknown, do nothing.
The optional `details` merge (`Object.assign`) is not modelled: every call
site relevant to the claims passes the default empty object. -/
def updateSessionStatus (st : ManagerState) (sessionId status reason : String)
    (now : Nat) : ManagerState :=
  match jsMapGet Session.id st.sessions sessionId with
  | some session =>
      let updated := session.updateStatus status now
      { st with
        sessions := jsMapSet Session.id st.sessions updated
        store := saveSessionData st.store updated
        events := st.events ++
          [{ sessionId := sessionId, event := "status_changed",
             oldStatus := session.status, newStatus := status, reason := reason }] }
  | none => st

/-- `SessionManager.getAllSessions` (session-manager.js lines 351-353):
`Array.from(this.sessions.values())`, i.e. the live sessions in insertion
order. -/
def getAllSessions (st : ManagerState) : List Session :=
  st.sessions

/-- `SessionManager.cleanupSession` (session-manager.js lines 414-445): if the
session is live, stamp `endTime` and `duration`, run
`updateSessionStatus(finalStatus)` (which persists), then delete the session
from the live map.  Unknown ids are a logged no-op. -/
def cleanupSession (st : ManagerState) (sessionId finalStatus reason : String)
    (now : Nat) : ManagerState :=
  match jsMapGet Session.id st.sessions sessionId with
  | some session =>
      let withEnd := { session with
        endTime := some now, duration := some ((now : Int) - (session.startTime : Int)) }
      let st1 := { st with sessions := jsMapSet Session.id st.sessions withEnd }
      let st2 := updateSessionStatus st1 sessionId finalStatus reason now
      { st2 with sessions := jsMapDelete Session.id st2.sessions sessionId }
  | none => st

/-! ## Stopping sessions (src/src/index.js, `SpotifyAutomation.stopSomeSessions`) -/

/-- The status filter of `stopSomeSessions`: sessions it considers active
(`'running' || 'idle' || 'initializing' || 'paused'`). -/
def stoppableStatus (s : Session) : Bool :=
  s.status == "running" || s.status == "idle" ||
    s.status == "initializing" || s.status == "paused"

/-- The body of the stop loop in `stopSomeSessions`: transition the chosen
session to `stopped`, then clean it up with final status `stopped`. -/
def stopStep (now : Nat) (acc : ManagerState) (sessionToStop : Session) : ManagerState :=
  let acc1 := updateSessionStatus acc sessionToStop.id "stopped"
    "Scheduled stop by Scheduler" now
  cleanupSession acc1 sessionToStop.id "stopped" "Scheduled stop by Scheduler" now

/-- `SpotifyAutomation.stopSomeSessions(count)`: snapshot the live sessions,
filter to the stoppable statuses, and for the first
`min(count, activeSessions.length)` of them run
`updateSessionStatus(id, 'stopped', …)` followed by
`cleanupSession(id, 'stopped', …)`. -/
def stopSomeSessions (st : ManagerState) (count : Nat) (now : Nat) : ManagerState :=
  let activeSessions := (getAllSessions st).filter stoppableStatus
  if activeSessions.length = 0 then st
  else
    let numToStop := min count activeSessions.length
    (activeSessions.take numToStop).foldl (stopStep now) st

/-! ## Session statistics summary (`SessionManager.getSessionStatsSummary`)

The source reads every persisted session file into `allPersistedSessions`,
then folds the live map over it: for each live session, if an entry with the
same id exists, it is overwritten in place by the live version
(`combinedSessions[index] = sessionToStore`), otherwise the live session is
pushed at the end.  The summary is computed from the combined list. -/

/-- One step of the combine loop in `getSessionStatsSummary`: replace the
first entry with the live session's id, else push the live session. -/
def combineStep (combined : List Session) (live : Session) : List Session :=
  jsMapSet Session.id combined live

/-- The combined session list of `getSessionStatsSummary` as a pure function
of the persisted records and the live map contents. -/
def combineSessions (persisted liveSessions : List Session) : List Session :=
  liveSessions.foldl combineStep persisted

/-- The aggregate counts returned by `getSessionStatsSummary`
(session-manager.js lines 473-505). -/
structure StatsSummary where
  totalTrackedSessions : Nat
  runningSessions : Nat
  stoppedSessions : Nat
  failedSessions : Nat
  completedSessions : Nat
  operationallyActiveSessions : Nat
  totalSuccessfulStreams : Nat
  totalFailedStreams : Nat
  totalPlaytime : Nat
  deriving Repr, DecidableEq

/-- Count of combined sessions with the given status string. -/
def countStatus (combined : List Session) (status : String) : Nat :=
  (combined.filter (fun s => s.status == status)).length

/-- `SessionManager.getSessionStatsSummary` (session-manager.js lines
448-506), as a pure function of the two input collections.  The per-status
counts not used by any claim (`idle`, `paused`, `restarting`, `unhealthy`,
`initializing`, `unknown`) are folded into the ones shown, computed the same
way. -/
def getSessionStatsSummary (persisted liveSessions : List Session) : StatsSummary :=
  let combined := combineSessions persisted liveSessions
  { totalTrackedSessions := combined.length
    runningSessions := countStatus combined "running"
    stoppedSessions := countStatus combined "stopped"
    failedSessions := countStatus combined "failed"
    completedSessions := countStatus combined "completed"
    operationallyActiveSessions :=
      countStatus combined "running" + countStatus combined "initializing" +
        countStatus combined "idle" + countStatus combined "paused" +
        countStatus combined "restarting"
    totalSuccessfulStreams := (combined.map (fun s => s.stats.successfulStreams)).sum
    totalFailedStreams := (combined.map (fun s => s.stats.failedStreams)).sum
    totalPlaytime := (combined.map (fun s => s.stats.totalPlaytime)).sum }

/-! ## Endpoint pool manager (`SmartproxyManager`, src/unnamed/part_001)

The proxy pool is a JS `Map` keyed by proxy id.  The nested `health` object
is flattened into `isHealthy` / `latency` (its `lastCheck` timestamp is
unused by the claims).  Configuration values are read with the JS `||`
operator, so a configured `0` falls back to the default; that is modelled by
`jsOrInt`. -/

/-- JS `config.value || default` for numeric configuration: `undefined`,
`null` and `0` all select the default. -/
def jsOrInt (v : Option Int) (d : Int) : Int :=
  match v with
  | some n => if n = 0 then d else n
  | none => d

/-- One pooled proxy endpoint. -/
structure Proxy where
  id : String
  host : String
  port : Nat
  isHealthy : Bool
  latency : Int
  assignedSessions : Int
  lastUsed : Option Nat
  consecutiveFailures : Int
  deriving Repr, DecidableEq

/-- The relevant `proxies.yaml` configuration values. -/
structure PoolConfig where
  maxSessionsPerProxy : Option Int := none
  maxFailuresBeforeRemoval : Option Int := none
  deriving Repr, DecidableEq

/-- The mutable state owned by `SmartproxyManager`: the pool map and the
clock used for `new Date()` stamps on `lastUsed`. -/
structure PoolState where
  config : PoolConfig
  pool : List Proxy
  now : Nat
  deriving Repr, DecidableEq

/-- A fetched proxy candidate (id, host, port) together with the outcome of
its initial health probe (`ProxyHealthChecker.test` is a random probe in the
source; the outcome is supplied as data). -/
structure Candidate where
  id : String
  host : String
  port : Nat
  probeHealthy : Bool
  probeLatency : Int
  deriving Repr, DecidableEq

/-- One admission of `initializePool` (part_001 lines 255-284): a candidate
passing the probe enters with `consecutiveFailures = 0`, a failing one is
retained marked unhealthy with `consecutiveFailures = 1`; both enter with
`assignedSessions = 0` and `lastUsed = null`. -/
def admitCandidate (c : Candidate) : Proxy :=
  { id := c.id, host := c.host, port := c.port,
    isHealthy := c.probeHealthy, latency := c.probeLatency,
    assignedSessions := 0, lastUsed := none,
    consecutiveFailures := if c.probeHealthy then 0 else 1 }

/-- `SmartproxyManager.initializePool` (part_001 lines 243-289): clear the
pool, then `set` every candidate's admitted record. -/
def initializePool (cfg : PoolConfig) (candidates : List Candidate) : PoolState :=
  { config := cfg, now := 0,
    pool := candidates.foldl (fun acc c => jsMapSet Proxy.id acc (admitCandidate c)) [] }

/-- The comparator of `selectProxyForSession` (part_001 lines 303-313) as a
boolean `a` sorts-no-later-than `b` relation: ascending `assignedSessions`,
then least-recently-used with `null` `lastUsed` first. -/
def proxyLE (a b : Proxy) : Bool :=
  if a.assignedSessions ≠ b.assignedSessions then
    a.assignedSessions ≤ b.assignedSessions
  else
    match a.lastUsed, b.lastUsed with
    | none, _ => true
    | some _, none => false
    | some x, some y => x ≤ y

/-- Stable insertion of a proxy into an already sorted list of later
elements: `x` goes before the first element it sorts no later than, so
elements comparing equal keep their original relative order, as a stable JS
`Array.sort` does. -/
def sortInsert (x : Proxy) : List Proxy → List Proxy
  | [] => [x]
  | y :: ys => if proxyLE x y then x :: y :: ys else y :: sortInsert x ys

/-- Stable sort by `proxyLE`, modelling `availableProxies.sort(...)`. -/
def sortProxies : List Proxy → List Proxy
  | [] => []
  | x :: xs => sortInsert x (sortProxies xs)

/-- `SmartproxyManager.selectProxyForSession` (part_001 lines 296-334): filter
the pool to healthy proxies, filter to those below `maxSessionsPerProxy`
(`proxyConfig.maxSessionsPerProxy || 3`), sort by the comparator, and take
the first; increment its assigned count, stamp `lastUsed`, write it back.
An empty candidate list yields `null` and leaves the pool untouched.  The
source returns a copy of the selected proxy's connection fields; the model
returns the selected record. -/
def selectProxyForSession (pm : PoolState) : PoolState × Option Proxy :=
  let maxSessionsPerProxy := jsOrInt pm.config.maxSessionsPerProxy 3
  let availableProxies :=
    sortProxies (((pm.pool.filter (fun p => p.isHealthy)).filter
      (fun p => p.assignedSessions < maxSessionsPerProxy)))
  match availableProxies with
  | [] => (pm, none)
  | selected :: _ =>
      let selected1 := { selected with
        assignedSessions := selected.assignedSessions + 1,
        lastUsed := some pm.now }
      ({ pm with pool := jsMapSet Proxy.id pm.pool selected1 }, some selected1)

/-- `SmartproxyManager.releaseProxy` (part_001 lines 340-349): decrement the
assigned count, floored at zero (`Math.max(0, assignedSessions - 1)`);
unknown ids are a logged no-op. -/
def releaseProxy (pm : PoolState) (proxyId : String) : PoolState :=
  match jsMapGet Proxy.id pm.pool proxyId with
  | some proxy =>
      let released := { proxy with assignedSessions := max 0 (proxy.assignedSessions - 1) }
      { pm with pool := jsMapSet Proxy.id pm.pool released }
  | none => pm

/-- The synchronous part of `SmartproxyManager.handleProxyFailure` (part_001
lines 358-395): mark the proxy unhealthy, increment `consecutiveFailures`,
decrement `assignedSessions` floored at zero, write it back, and immediately
attempt a replacement lease via `selectProxyForSession`.  The delayed health
re-check it schedules is modelled separately by `recheckProxy`. -/
def handleProxyFailure (pm : PoolState) (proxyId : String) :
    PoolState × Option Proxy :=
  let pm1 :=
    match jsMapGet Proxy.id pm.pool proxyId with
    | some proxy =>
        let failed := { proxy with
          isHealthy := false,
          consecutiveFailures := proxy.consecutiveFailures + 1,
          assignedSessions := max 0 (proxy.assignedSessions - 1) }
        { pm with pool := jsMapSet Proxy.id pm.pool failed }
    | none => pm
  selectProxyForSession pm1

/-- The delayed re-check callback scheduled by `handleProxyFailure` (part_001
lines 372-388), with the probe outcome supplied as data.  On a healthy probe
the failure counter resets; on an unhealthy probe, if `consecutiveFailures`
has reached `maxFailuresBeforeRemoval || 3` the proxy is deleted from the
pool — and then the callback's trailing `this.proxyPool.set(proxy.id, proxy)`
runs unconditionally, re-inserting the very record in both branches. -/
def recheckProxy (pm : PoolState) (proxyId : String)
    (probeHealthy : Bool) (probeLatency : Int) : PoolState :=
  match jsMapGet Proxy.id pm.pool proxyId with
  | none => pm
  | some proxy =>
      let proxy1 := { proxy with isHealthy := probeHealthy, latency := probeLatency }
      if probeHealthy then
        let recovered := { proxy1 with consecutiveFailures := 0 }
        { pm with pool := jsMapSet Proxy.id pm.pool recovered }
      else
        let maxFailures := jsOrInt pm.config.maxFailuresBeforeRemoval 3
        let pool1 :=
          if maxFailures ≤ proxy1.consecutiveFailures then
            jsMapDelete Proxy.id pm.pool proxyId
          else pm.pool
        { pm with pool := jsMapSet Proxy.id pool1 proxy1 }

/-- The statistics object of `SmartproxyManager.getProxyStats` (part_001
lines 401-421). -/
structure ProxyStats where
  totalProxies : Nat
  healthyProxies : Nat
  unhealthyProxies : Nat
  totalAssignedSessions : Int
  deriving Repr, DecidableEq

/-- `SmartproxyManager.getProxyStats`: totals over the current pool map. -/
def getProxyStats (pm : PoolState) : ProxyStats :=
  let totalProxies := pm.pool.length
  let healthyProxies := (pm.pool.filter (fun p => p.isHealthy)).length
  { totalProxies := totalProxies
    healthyProxies := healthyProxies
    unhealthyProxies := totalProxies - healthyProxies
    totalAssignedSessions := (pm.pool.map (fun p => p.assignedSessions)).sum }

/-! ## Session creation (`SessionManager.createSession`, lines 136-181)

`createSession` first asks `selectProxy` for an endpoint.  `selectProxy`
returns an `{ error: 'No_proxy_available_from_ProxyManager' }` marker when
`selectProxyForSession` yields `null`; `createSession` then records a
`proxy_error` event and returns `null` without touching the session map.

When a proxy IS obtained, the source computes `behaviorProfile`,
`sessionLengthConfig` and `schedule` and then builds

    const sessionOptions = { id: sessionId, account: config.account,
                             proxy, behavior, schedule, ... };

`behavior` is not bound anywhere in the function (the computed profile is
named `behaviorProfile`), so evaluating the object literal throws a
`ReferenceError` before the `SpotifySession` is constructed: nothing is
added to the live map, nothing is persisted, and no id is returned.  The
model makes the thrown exception explicit. -/

/-- The result of one `createSession` call. -/
inductive CreateResult where
  /-- The created session's id was returned. -/
  | created (sessionId : String)
  /-- `null` was returned (proxy selection failed; non-fatal). -/
  | failedNull
  /-- A JS exception escaped (the async function rejects). -/
  | thrown (message : String)
  deriving Repr, DecidableEq

/-- `SessionManager.createSession` over the manager and pool state.  The
generated session id is supplied by the caller (the source derives it from
`Date.now()` and `Math.random()`). -/
def createSession (st : ManagerState) (pm : PoolState)
    (sessionId : String) : ManagerState × PoolState × CreateResult :=
  match selectProxyForSession pm with
  | (pm1, none) =>
      ({ st with events := st.events ++
          [{ sessionId := sessionId, event := "proxy_error",
             reason := "Proxy selection failed: No_proxy_available_from_ProxyManager" }] },
       pm1, CreateResult.failedNull)
  | (pm1, some _proxy) =>
      (st, pm1, CreateResult.thrown "behavior is not defined")

/-! ## Capacity scheduler (`ShiftScheduler`, src/unnamed/part_000)

`shiftsConfig` is a JS object mapping shift names to
`{ start_hour, end_hour, capacity, timezone, cronPattern }`; its key order
is modelled as a list of named shifts.  All built-in default shifts carry
timezone `"UTC"`, so `getCurrentShift` compares against `getUTCHours()`;
the hour is passed in directly. -/

/-- One configured shift window. -/
structure Shift where
  start_hour : Nat
  end_hour : Nat
  capacity : ℚ
  deriving Repr, DecidableEq

/-- The hour-matching predicate inside `getCurrentShift` (part_000 lines
70-74): a non-wrapping window matches `start ≤ hour < end`; a window that
crosses midnight (`start > end`) matches `hour ≥ start || hour < end`. -/
def shiftMatches (sh : Shift) (hour : Nat) : Bool :=
  if sh.start_hour ≤ sh.end_hour then
    decide (sh.start_hour ≤ hour) && decide (hour < sh.end_hour)
  else
    decide (hour ≥ sh.start_hour) || decide (hour < sh.end_hour)

/-- A shift configuration: shift names with their windows, in key order. -/
abbrev ShiftsConfig := List (String × Shift)

/-- The hardcoded default shifts used when `schedule.yaml` is missing or
fails to load (part_000 lines 34-46): morning 06-12 at capacity 0.3,
afternoon 12-18 at 1.0, night 18-06 at 0.5. -/
def nightShift : Shift := { start_hour := 18, end_hour := 6, capacity := 1/2 }

/-- The default morning shift window. -/
def morningShift : Shift := { start_hour := 6, end_hour := 12, capacity := 3/10 }

/-- The default afternoon shift window. -/
def afternoonShift : Shift := { start_hour := 12, end_hour := 18, capacity := 1 }

/-- The built-in default shift policy, in the source's key order. -/
def defaultShifts : ShiftsConfig :=
  [("morning", morningShift), ("afternoon", afternoonShift), ("night", nightShift)]

/-- `ShiftScheduler.getCurrentShift` (part_000 lines 51-87): the first
configured shift whose window matches the hour; if none matches, fall back
to the shift named `night`, else the first configured shift, else the
string `'undefined_fallback'`. -/
def getCurrentShift (cfg : ShiftsConfig) (hour : Nat) : String :=
  match cfg.find? (fun nsh => shiftMatches nsh.2 hour) with
  | some nsh => nsh.1
  | none =>
      match cfg.find? (fun nsh => nsh.1 == "night") with
      | some nsh => nsh.1
      | none =>
          match cfg with
          | nsh :: _ => nsh.1
          | [] => "undefined_fallback"

/-- `ShiftScheduler.getActiveSessionCount` (part_000 lines 89-101): despite
its name, the allowed concurrency — `Math.floor(maxSessions * capacity)` of
the current shift, or `0` if the current shift's configuration cannot be
found. -/
def getActiveSessionCount (cfg : ShiftsConfig) (maxSessions : Nat) (hour : Nat) : Int :=
  match cfg.find? (fun nsh => nsh.1 == getCurrentShift cfg hour) with
  | none => 0
  | some nsh => ⌊(maxSessions : ℚ) * nsh.2.capacity⌋

/-- The command `adjustCapacity` issues to the orchestration driver. -/
inductive CapacityCommand where
  /-- `runMoreSessions(difference)` -/
  | runMore (n : Int)
  /-- `stopSomeSessions(Math.abs(difference))` -/
  | stopSome (n : Int)
  /-- difference is zero: no change requested -/
  | noChange
  deriving Repr, DecidableEq

/-- `ShiftScheduler.adjustCapacity` (part_000 lines 187-205): compute the
target from the current shift, subtract the session manager's count of
operationally active sessions, and request that many starts (positive
difference) or stops (negative difference). -/
def adjustCapacity (cfg : ShiftsConfig) (maxSessions : Nat) (hour : Nat)
    (currentActiveSessions : Nat) : CapacityCommand :=
  let targetSessions := getActiveSessionCount cfg maxSessions hour
  let difference := targetSessions - (currentActiveSessions : Int)
  if 0 < difference then CapacityCommand.runMore difference
  else if difference < 0 then CapacityCommand.stopSome |difference|
  else CapacityCommand.noChange

/-! ## Metrics collector (`MetricsCollector`, src/unnamed/part_006)

Counters live in a `Map` from metric name to number; `recordSessionEvent`
only ever increments them by 1, so they are modelled as naturals. -/

/-- One named counter. -/
structure Metric where
  name : String
  value : Nat
  deriving Repr, DecidableEq

/-- The metrics map. -/
abbrev Metrics := List Metric

/-- `MetricsCollector.getMetric`: `this.metrics.get(name) || 0`. -/
def getMetric (ms : Metrics) (name : String) : Nat :=
  match jsMapGet Metric.name ms name with
  | some m => m.value
  | none => 0

/-- `toFixed(2)` followed by `parseFloat`, on a non-negative rational: round
to the nearest hundredth, ties upward. -/
def toFixed2 (q : ℚ) : ℚ :=
  (round (q * 100) : ℚ) / 100

/-- `MetricsCollector.getSuccessRate` (part_006 lines 31-37): read the
`session.completed` and `session.failed` counters; return `1` when no
session has ended, else `completed / totalEnded` rounded to two decimals by
`parseFloat((completed / totalEnded).toFixed(2))`. -/
def getSuccessRate (ms : Metrics) : ℚ :=
  let completed := getMetric ms "session.completed"
  let failed := getMetric ms "session.failed"
  let totalEnded := completed + failed
  if totalEnded = 0 then 1
  else toFixed2 ((completed : ℚ) / (totalEnded : ℚ))

/-! ## Pool operation sequences

For the lease invariant the pool is driven by an arbitrary finite sequence
of the operations the specification names, including the delayed re-check
that `reportFailure` schedules. -/

/-- One pool operation. -/
inductive PoolOp where
  /-- `selectProxyForSession` (the lease) -/
  | lease
  /-- `releaseProxy(proxyId)` -/
  | release (proxyId : String)
  /-- the synchronous part of `handleProxyFailure(proxyId, …)` -/
  | reportFailure (proxyId : String)
  /-- the delayed re-check of `proxyId` firing with the given probe outcome -/
  | recheck (proxyId : String) (probeHealthy : Bool) (probeLatency : Int)
  /-- the clock advancing to `t` between calls -/
  | tick (t : Nat)

/-- Apply one pool operation to the pool state. -/
def applyPoolOp (pm : PoolState) : PoolOp → PoolState
  | PoolOp.lease => (selectProxyForSession pm).1
  | PoolOp.release i => releaseProxy pm i
  | PoolOp.reportFailure i => (handleProxyFailure pm i).1
  | PoolOp.recheck i h l => recheckProxy pm i h l
  | PoolOp.tick t => { pm with now := t }

/-- Apply a finite sequence of pool operations in order. -/
def applyPoolOps (pm : PoolState) (ops : List PoolOp) : PoolState :=
  ops.foldl applyPoolOp pm

/-! ## Map lemmas -/

/-- Unfolding lemma for `jsMapGet` on a cons cell. -/
theorem jsMapGet_cons (key : α → String) (t : α) (ts : List α) (i : String) :
    jsMapGet key (t :: ts) i = if key t == i then some t else jsMapGet key ts i := by
  by_cases hc : (key t == i) = true
  · simp [jsMapGet, List.find?_cons_of_pos, hc]
  · simp [jsMapGet, List.find?_cons_of_neg, hc]

/-- Everything in `jsMapSet m x` is an old entry or the new entry. -/
theorem mem_jsMapSet {key : α → String} {m : List α} {x q : α}
    (h : q ∈ jsMapSet key m x) : q ∈ m ∨ q = x := by
  induction m with
  | nil =>
      simp only [jsMapSet, List.mem_singleton] at h
      exact Or.inr h
  | cons t ts ih =>
      rw [jsMapSet] at h
      by_cases hc : (key t == key x) = true
      · rw [if_pos hc] at h
        rcases List.mem_cons.mp h with h | h
        · exact Or.inr h
        · exact Or.inl (List.mem_cons_of_mem _ h)
      · rw [if_neg hc] at h
        rcases List.mem_cons.mp h with h | h
        · exact Or.inl (h ▸ List.mem_cons_self t ts)
        · rcases ih h with h1 | h1
          · exact Or.inl (List.mem_cons_of_mem _ h1)
          · exact Or.inr h1

/-- A found entry is a member of the map. -/
theorem jsMapGet_mem {key : α → String} {m : List α} {i : String} {p : α}
    (h : jsMapGet key m i = some p) : p ∈ m :=
  List.mem_of_find?_eq_some h

/-- The key of a found entry is the requested key. -/
theorem jsMapGet_key {key : α → String} {m : List α} {i : String} {p : α}
    (h : jsMapGet key m i = some p) : key p = i := by
  have := List.find?_some h
  simpa using this

/-- Reading the key just written returns the written entry. -/
theorem jsMapGet_jsMapSet_self (key : α → String) (m : List α) (x : α) :
    jsMapGet key (jsMapSet key m x) (key x) = some x := by
  induction m with
  | nil => simp [jsMapSet, jsMapGet_cons, jsMapGet]
  | cons t ts ih =>
      rw [jsMapSet]
      by_cases hc : (key t == key x) = true
      · rw [if_pos hc, jsMapGet_cons, if_pos (by simp)]
      · rw [if_neg hc, jsMapGet_cons, if_neg hc, ih]

/-- Deleting the key of a just-written entry is deleting the key outright. -/
theorem jsMapDelete_jsMapSet (key : α → String) (m : List α) (x : α) :
    jsMapDelete key (jsMapSet key m x) (key x) = jsMapDelete key m (key x) := by
  induction m with
  | nil => simp [jsMapSet, jsMapDelete]
  | cons t ts ih =>
      rw [jsMapSet]
      by_cases hc : (key t == key x) = true
      · rw [if_pos hc, jsMapDelete, if_pos (by simp), jsMapDelete, if_pos hc]
      · rw [if_neg hc, jsMapDelete, if_neg hc, jsMapDelete, if_neg hc, ih]

/-- Deleting an absent key is a no-op. -/
theorem jsMapDelete_of_get_none {key : α → String} {m : List α} {i : String}
    (h : jsMapGet key m i = none) : jsMapDelete key m i = m := by
  induction m with
  | nil => rfl
  | cons t ts ih =>
      rw [jsMapGet_cons] at h
      by_cases hc : (key t == i) = true
      · rw [if_pos hc] at h
        cases h
      · rw [if_neg hc] at h
        rw [jsMapDelete, if_neg hc, ih h]

/-- The deleted map is a sublist of the original. -/
theorem jsMapDelete_sublist (key : α → String) (m : List α) (i : String) :
    List.Sublist (jsMapDelete key m i) m := by
  induction m with
  | nil => exact List.Sublist.refl _
  | cons t ts ih =>
      rw [jsMapDelete]
      by_cases hc : (key t == i) = true
      · rw [if_pos hc]
        exact List.sublist_cons_self t ts
      · rw [if_neg hc]
        exact List.Sublist.cons₂ t ih

/-- Membership survives deletion of a different key. -/
theorem mem_jsMapDelete_of_ne {key : α → String} {m : List α} {s : α} {i : String}
    (hm : s ∈ m) (hne : key s ≠ i) : s ∈ jsMapDelete key m i := by
  induction m with
  | nil => simp at hm
  | cons t ts ih =>
      rw [jsMapDelete]
      rcases List.mem_cons.mp hm with rfl | hmem
      · rw [if_neg (by simpa using hne)]
        exact List.mem_cons_self _ _
      · by_cases hc : (key t == i) = true
        · rw [if_pos hc]
          exact hmem
        · rw [if_neg hc]
          exact List.mem_cons_of_mem _ (ih hmem)

/-- With distinct keys, lookup of a member's key finds that member. -/
theorem jsMapGet_of_mem_nodup {key : α → String} {m : List α} {s : α}
    (hnd : (m.map key).Nodup) (hm : s ∈ m) :
    jsMapGet key m (key s) = some s := by
  induction m with
  | nil => simp at hm
  | cons t ts ih =>
      rw [List.map_cons, List.nodup_cons] at hnd
      rw [jsMapGet_cons]
      rcases List.mem_cons.mp hm with rfl | hmem
      · rw [if_pos (by simp)]
      · have hne : ¬(key t == key s) = true := by
          simp only [beq_iff_eq]
          intro he
          exact hnd.1 (he ▸ List.mem_map_of_mem key hmem)
        rw [if_neg hne, ih hnd.2 hmem]

/-- With distinct keys, deleting a key is filtering it out. -/
theorem jsMapDelete_eq_filter {key : α → String} {m : List α} {i : String}
    (hnd : (m.map key).Nodup) :
    jsMapDelete key m i = m.filter (fun t => !(key t == i)) := by
  induction m with
  | nil => rfl
  | cons t ts ih =>
      rw [List.map_cons, List.nodup_cons] at hnd
      by_cases hc : (key t == i) = true
      · rw [jsMapDelete, if_pos hc, List.filter_cons_of_neg (by simpa using hc)]
        have hkey : key t = i := by simpa using hc
        have hall : ∀ u ∈ ts, (!(key u == i)) = true := by
          intro u hu
          have hne : key u ≠ i := by
            intro he
            exact hnd.1 (by
              rw [hkey, ← he]
              exact List.mem_map_of_mem key hu)
          simpa using hne
        exact (List.filter_eq_self.mpr hall).symm
      · rw [jsMapDelete, if_neg hc, List.filter_cons_of_pos (by simpa using hc), ih hnd.2]

/-! ## Claim C1 -/

/-- A live session already in the terminal state `completed`. -/
def c1Session : Session :=
  { id := "s1", account := "alice@example.com", status := "completed",
    startTime := 0, lastUpdate := 0, stats := ⟨3, 1, 900⟩ }

/-- A manager whose only live session is terminal. -/
def c1State : ManagerState :=
  { sessions := [c1Session], store := [c1Session], events := [] }

/-- C1, counterexample: `updateSessionStatus` does not validate terminal
states.  A session whose stored status is `completed` is moved to `running`
by a subsequent transition request, so the claim that the stored status
stays unchanged is false on the code. -/
theorem updateSessionStatus_leaves_terminal :
    (jsMapGet Session.id (updateSessionStatus c1State "s1" "running" "caller request" 5).sessions
        "s1").map Session.status = some "running"
  ∧ (jsMapGet Session.id (updateSessionStatus c1State "s1" "running" "caller request" 5).sessions
        "s1").map Session.status ≠ some "completed" := by
  constructor
  · decide
  · decide

/-- C1, amended: `updateSessionStatus` performs no terminal-state validation
at all.  For any session present in the live map — including one whose
status is `completed`, `failed`, or `stopped` — a transition request
unconditionally overwrites the stored status with the requested one and
refreshes the last-update timestamp. -/
theorem updateSessionStatus_unconditional (st : ManagerState)
    (sessionId newStatus reason : String) (now : Nat) (s : Session)
    (hs : jsMapGet Session.id st.sessions sessionId = some s)
    (hterm : s.status = "completed" ∨ s.status = "failed" ∨ s.status = "stopped") :
    jsMapGet Session.id (updateSessionStatus st sessionId newStatus reason now).sessions sessionId
      = some (s.updateStatus newStatus now)
  ∧ (s.updateStatus newStatus now).status = newStatus
  ∧ (s.updateStatus newStatus now).lastUpdate = now := by
  refine ⟨?_, rfl, rfl⟩
  have hkey0 : Session.id s = sessionId := jsMapGet_key hs
  have hkey : Session.id (s.updateStatus newStatus now) = sessionId := hkey0
  rw [updateSessionStatus, hs]
  simp only
  rw [← hkey, jsMapGet_jsMapSet_self]

/-- C1, witness for the amended theorem at the concrete terminal session. -/
theorem updateSessionStatus_unconditional_witness :
    jsMapGet Session.id c1State.sessions "s1" = some c1Session
  ∧ c1Session.status = "completed"
  ∧ jsMapGet Session.id (updateSessionStatus c1State "s1" "running" "caller request" 5).sessions
      "s1" = some (c1Session.updateStatus "running" 5) :=
  ⟨by decide, rfl,
    (updateSessionStatus_unconditional c1State "s1" "running" "caller request" 5 c1Session
      (by decide) (Or.inl rfl)).1⟩

/-! ## Claim C5 -/

/-- C5: `adjustCapacity` requests exactly the difference between the floor
target `floor(maxSessions * capacity)` of the current shift and the
operationally active count — that many starts when positive, that many stops
when negative; in particular 30 starts for capacity 100, fraction 0.5 (the
night shift at hour 18) with 20 active, and 50 stops for capacity 100,
fraction 0.3 (the morning shift at hour 6) with 80 active. -/
theorem adjustCapacity_exact_delta (cfg : ShiftsConfig) (maxSessions hour active : Nat) :
    (0 < getActiveSessionCount cfg maxSessions hour - (active : Int) →
      adjustCapacity cfg maxSessions hour active =
        CapacityCommand.runMore (getActiveSessionCount cfg maxSessions hour - active))
  ∧ (getActiveSessionCount cfg maxSessions hour - (active : Int) < 0 →
      adjustCapacity cfg maxSessions hour active =
        CapacityCommand.stopSome ((active : Int) - getActiveSessionCount cfg maxSessions hour))
  ∧ getCurrentShift defaultShifts 18 = "night" ∧ nightShift.capacity = 1/2
  ∧ adjustCapacity defaultShifts 100 18 20 = CapacityCommand.runMore 30
  ∧ getCurrentShift defaultShifts 6 = "morning" ∧ morningShift.capacity = 3/10
  ∧ adjustCapacity defaultShifts 100 6 80 = CapacityCommand.stopSome 50 := by
  refine ⟨?_, ?_, by decide, by decide, by decide, by decide, by decide, by decide⟩
  · intro h
    rw [adjustCapacity]
    simp only [if_pos h]
  · intro h
    rw [adjustCapacity]
    rw [if_neg (by omega), if_pos h, abs_of_neg h, neg_sub]

/-- C5, witness: the general start/stop characterization applied to the two
concrete scenarios. -/
theorem adjustCapacity_exact_delta_witness :
    (0 < getActiveSessionCount defaultShifts 100 18 - (20 : Int) ∧
      adjustCapacity defaultShifts 100 18 20 =
        CapacityCommand.runMore (getActiveSessionCount defaultShifts 100 18 - 20))
  ∧ (getActiveSessionCount defaultShifts 100 6 - (80 : Int) < 0 ∧
      adjustCapacity defaultShifts 100 6 80 =
        CapacityCommand.stopSome ((80 : Int) - getActiveSessionCount defaultShifts 100 6)) :=
  ⟨⟨by decide, (adjustCapacity_exact_delta defaultShifts 100 18 20).1 (by decide)⟩,
   ⟨by decide, (adjustCapacity_exact_delta defaultShifts 100 6 80).2.1 (by decide)⟩⟩

/-! ## Claim C3 -/

/-- A pool configured with defaults and one endpoint that passed its initial
probe. -/
def c3Pool : PoolState :=
  initializePool {}
    [{ id := "proxy1", host := "proxy1.example.com", port := 8080,
       probeHealthy := true, probeLatency := 100 }]

/-- The pool after `proxy1` reports failure three times consecutively and its
delayed re-probe still finds it unhealthy. -/
def c3AfterRecheck : PoolState :=
  recheckProxy
    ((handleProxyFailure
      ((handleProxyFailure
        ((handleProxyFailure c3Pool "proxy1").1) "proxy1").1) "proxy1").1)
    "proxy1" false (-1)

/-- C3: after three consecutive failures (reaching the default eviction
threshold 3) and an unhealthy re-probe, the endpoint is still present in the
pool map and still counted by `getProxyStats` — the re-check callback
executes `proxyPool.delete(id)` but then unconditionally re-runs
`proxyPool.set(id, proxy)`, undoing the eviction the code itself logs. -/
theorem evicted_endpoint_still_in_pool :
    (jsMapGet Proxy.id c3AfterRecheck.pool "proxy1").map Proxy.consecutiveFailures = some 3
  ∧ jsOrInt c3AfterRecheck.config.maxFailuresBeforeRemoval 3 ≤ 3
  ∧ (jsMapGet Proxy.id c3AfterRecheck.pool "proxy1").map Proxy.isHealthy = some false
  ∧ (getProxyStats c3AfterRecheck).totalProxies = 1
  ∧ (getProxyStats c3AfterRecheck).unhealthyProxies = 1 := by
  refine ⟨by decide, by decide, by decide, by decide, by decide⟩

/-! ## Claim C4 -/

/-- A pool holding one healthy endpoint with spare capacity, so that a lease
is available. -/
def c4Pool : PoolState := c3Pool

/-- An empty session manager. -/
def c4State : ManagerState := { sessions := [], store := [], events := [] }

/-- C4: when an endpoint lease IS successfully allocated, `createSession`
does not create the session: the session-options object literal references
the unbound identifier `behavior` (the computed profile is named
`behaviorProfile`), so a `ReferenceError` is thrown before the record is
built — the live map and the persisted store are untouched and no id is
returned. -/
theorem createSession_throws_after_lease :
    (selectProxyForSession c4Pool).2.isSome = true
  ∧ (createSession c4State c4Pool "session_1").2.2
      = CreateResult.thrown "behavior is not defined"
  ∧ (createSession c4State c4Pool "session_1").1.sessions = c4State.sessions
  ∧ (createSession c4State c4Pool "session_1").1.store = c4State.store := by
  refine ⟨by decide, by decide, by decide, by decide⟩

/-! ## Claim C6 -/

/-- C6: the hour-matching rule of `getCurrentShift` — a non-wrapping window
matches `start ≤ hour < end` and a wrapping window (`start > end`) matches
`hour ≥ start OR hour < end`; under the built-in default policy every hour
0-23 is matched by exactly one shift, and the 18:00-06:00 night window
matches exactly the hours 18-23 and 0-5. -/
theorem shiftMatches_windows (sh : Shift) (hour : Nat) :
    (sh.start_hour ≤ sh.end_hour →
      (shiftMatches sh hour = true ↔ sh.start_hour ≤ hour ∧ hour < sh.end_hour))
  ∧ (sh.end_hour < sh.start_hour →
      (shiftMatches sh hour = true ↔ hour ≥ sh.start_hour ∨ hour < sh.end_hour))
  ∧ (∀ h : Fin 24, (defaultShifts.filter (fun nsh => shiftMatches nsh.2 h.val)).length = 1)
  ∧ (∀ h : Fin 24,
      (shiftMatches nightShift h.val = true ↔ (18 ≤ h.val ∧ h.val ≤ 23) ∨ h.val ≤ 5)) := by
  refine ⟨?_, ?_, by decide, by decide⟩
  · intro hle
    rw [shiftMatches, if_pos hle]
    simp
  · intro hgt
    rw [shiftMatches, if_neg (by omega)]
    simp

/-- C6, witness: the two window rules applied to the default morning
(non-wrapping) and night (wrapping) shifts at concrete hours. -/
theorem shiftMatches_windows_witness :
    morningShift.start_hour ≤ morningShift.end_hour
  ∧ (shiftMatches morningShift 7 = true ↔
      morningShift.start_hour ≤ 7 ∧ 7 < morningShift.end_hour)
  ∧ nightShift.end_hour < nightShift.start_hour
  ∧ (shiftMatches nightShift 20 = true ↔
      20 ≥ nightShift.start_hour ∨ 20 < nightShift.end_hour) :=
  ⟨by decide, (shiftMatches_windows morningShift 7).1 (by decide),
   by decide, (shiftMatches_windows nightShift 20).2.1 (by decide)⟩

/-! ## Claim C9 -/

/-- Metrics after one completed and two failed sessions. -/
def c9Metrics : Metrics :=
  [{ name := "session.completed", value := 1 }, { name := "session.failed", value := 2 }]

/-- C9, counterexample: with 1 completed and 2 failed sessions the reported
rate is `0.33`, not `1/3` — `getSuccessRate` rounds to two decimals via
`toFixed(2)`, so it does not equal `completed / (completed + failed)`. -/
theorem successRate_not_exact_ratio :
    getSuccessRate c9Metrics = 33/100
  ∧ getSuccessRate c9Metrics
      ≠ (getMetric c9Metrics "session.completed" : ℚ) /
          ((getMetric c9Metrics "session.completed" +
            getMetric c9Metrics "session.failed" : Nat) : ℚ) := by
  refine ⟨by decide, by decide⟩

/-- Rounding to the nearest hundredth moves a rational by at most 1/200. -/
theorem toFixed2_close (q : ℚ) : |toFixed2 q - q| ≤ 1/200 := by
  rw [toFixed2]
  have h := abs_sub_round (q * 100)
  rw [abs_sub_comm] at h
  have h100 : (0:ℚ) < 100 := by norm_num
  have heq : (round (q * 100) : ℚ) / 100 - q = ((round (q * 100) : ℚ) - q * 100) / 100 := by
    ring
  rw [heq, abs_div, abs_of_pos h100]
  calc |(round (q * 100) : ℚ) - q * 100| / 100
      ≤ (1/2) / 100 := (div_le_div_iff_of_pos_right h100).mpr h
    _ = 1/200 := by norm_num

/-- C9, amended: `getSuccessRate` equals `completed / (completed + failed)`
rounded to two decimal places (so it is always within 1/200 of the exact
ratio), and equals 1 when no sessions have ended yet — it never divides by
zero. -/
theorem successRate_rounded_ratio (ms : Metrics) :
    (getMetric ms "session.completed" + getMetric ms "session.failed" = 0 →
      getSuccessRate ms = 1)
  ∧ (0 < getMetric ms "session.completed" + getMetric ms "session.failed" →
      getSuccessRate ms =
        toFixed2 ((getMetric ms "session.completed" : ℚ) /
          ((getMetric ms "session.completed" + getMetric ms "session.failed" : Nat) : ℚ))
      ∧ |getSuccessRate ms -
          (getMetric ms "session.completed" : ℚ) /
            ((getMetric ms "session.completed" +
              getMetric ms "session.failed" : Nat) : ℚ)| ≤ 1/200) := by
  constructor
  · intro h
    simp only [getSuccessRate]
    rw [if_pos h]
  · intro h
    have hne : ¬(getMetric ms "session.completed" + getMetric ms "session.failed" = 0) := by
      omega
    have heq : getSuccessRate ms =
        toFixed2 ((getMetric ms "session.completed" : ℚ) /
          ((getMetric ms "session.completed" + getMetric ms "session.failed" : Nat) : ℚ)) := by
      simp only [getSuccessRate]
      rw [if_neg hne]
    refine ⟨heq, ?_⟩
    rw [heq]
    exact toFixed2_close _

/-- C9, witness for the amended theorem at the 1-completed / 2-failed
metrics. -/
theorem successRate_rounded_ratio_witness :
    0 < getMetric c9Metrics "session.completed" + getMetric c9Metrics "session.failed"
  ∧ getSuccessRate c9Metrics =
      toFixed2 ((getMetric c9Metrics "session.completed" : ℚ) /
        ((getMetric c9Metrics "session.completed" +
          getMetric c9Metrics "session.failed" : Nat) : ℚ))
  ∧ |getSuccessRate c9Metrics -
      (getMetric c9Metrics "session.completed" : ℚ) /
        ((getMetric c9Metrics "session.completed" +
          getMetric c9Metrics "session.failed" : Nat) : ℚ)| ≤ 1/200 :=
  ⟨by decide,
   ((successRate_rounded_ratio c9Metrics).2 (by decide)).1,
   ((successRate_rounded_ratio c9Metrics).2 (by decide)).2⟩

/-! ## Claim C7 -/

/-- C7: when no pooled endpoint is healthy with spare capacity (empty pool,
all unhealthy, or all at `maxSessionsPerProxy`), `selectProxyForSession`
returns `null` and leaves the pool untouched, and `createSession` treats
that as a non-fatal creation failure: it returns `null` and neither the live
session map nor the persisted store changes. -/
theorem lease_unavailable_nonfatal (st : ManagerState) (pm : PoolState) (sessionId : String)
    (h : ∀ p ∈ pm.pool, ¬(p.isHealthy = true ∧
          p.assignedSessions < jsOrInt pm.config.maxSessionsPerProxy 3)) :
    (selectProxyForSession pm).2 = none
  ∧ (selectProxyForSession pm).1 = pm
  ∧ (createSession st pm sessionId).2.2 = CreateResult.failedNull
  ∧ (createSession st pm sessionId).1.sessions = st.sessions
  ∧ (createSession st pm sessionId).1.store = st.store := by
  have hfil : (pm.pool.filter (fun p => p.isHealthy)).filter
      (fun p => p.assignedSessions < jsOrInt pm.config.maxSessionsPerProxy 3) = [] := by
    rw [List.filter_eq_nil_iff]
    intro p hp
    have hp1 := List.of_mem_filter hp
    have hp0 := List.mem_of_mem_filter hp
    simp only [decide_eq_true_eq]
    intro hlt
    exact h p hp0 ⟨hp1, hlt⟩
  have hsel : selectProxyForSession pm = (pm, none) := by
    rw [selectProxyForSession]
    simp only [hfil, sortProxies]
  refine ⟨by rw [hsel], by rw [hsel], ?_, ?_, ?_⟩ <;>
    simp [createSession, hsel]

/-- A pool of three endpoints, each healthy and already at the configured
per-endpoint maximum of one session (the specification's Scenario C). -/
def c7Pool : PoolState :=
  { config := { maxSessionsPerProxy := some 1 },
    now := 3,
    pool :=
      [{ id := "proxy1", host := "proxy1.example.com", port := 8080, isHealthy := true,
         latency := 80, assignedSessions := 1, lastUsed := some 1, consecutiveFailures := 0 },
       { id := "proxy2", host := "proxy2.example.com", port := 8081, isHealthy := true,
         latency := 90, assignedSessions := 1, lastUsed := some 2, consecutiveFailures := 0 },
       { id := "proxy3", host := "proxy3.example.com", port := 8082, isHealthy := true,
         latency := 70, assignedSessions := 1, lastUsed := some 3, consecutiveFailures := 0 }] }

/-- A manager with one live session, to observe that the map is untouched. -/
def c7State : ManagerState :=
  { sessions := [{ id := "s1", account := "a@example.com", status := "running",
                   startTime := 0, lastUpdate := 0, stats := ⟨0, 0, 0⟩ }],
    store := [], events := [] }

/-- C7, witness: the fourth lease request against the saturated three-endpoint
pool returns `null` and the creation attempt fails without touching the live
map. -/
theorem lease_unavailable_nonfatal_witness :
    (selectProxyForSession c7Pool).2 = none
  ∧ (createSession c7State c7Pool "session_4").2.2 = CreateResult.failedNull
  ∧ (createSession c7State c7Pool "session_4").1.sessions = c7State.sessions :=
  ⟨(lease_unavailable_nonfatal c7State c7Pool "session_4" (by decide)).1,
   (lease_unavailable_nonfatal c7State c7Pool "session_4" (by decide)).2.2.1,
   (lease_unavailable_nonfatal c7State c7Pool "session_4" (by decide)).2.2.2.1⟩

/-! ## Claim C2 -/

/-- The lease invariant: every pooled endpoint's assigned-session count is
non-negative and at most the effective per-endpoint maximum. -/
def assignedInBounds (maxS : Int) (pool : List Proxy) : Prop :=
  ∀ p ∈ pool, 0 ≤ p.assignedSessions ∧ p.assignedSessions ≤ maxS

/-- Sorted insertion only rearranges: membership is insertion or original. -/
theorem mem_sortInsert {x q : Proxy} {l : List Proxy} (h : q ∈ sortInsert x l) :
    q = x ∨ q ∈ l := by
  induction l with
  | nil =>
      simp only [sortInsert, List.mem_singleton] at h
      exact Or.inl h
  | cons y ys ih =>
      rw [sortInsert] at h
      by_cases hc : proxyLE x y = true
      · rw [if_pos hc] at h
        rcases List.mem_cons.mp h with rfl | h
        · exact Or.inl rfl
        · exact Or.inr h
      · rw [if_neg hc] at h
        rcases List.mem_cons.mp h with rfl | h
        · exact Or.inr (List.mem_cons_self _ _)
        · rcases ih h with h1 | h1
          · exact Or.inl h1
          · exact Or.inr (List.mem_cons_of_mem _ h1)

/-- The sort only rearranges: every element of the output is in the input. -/
theorem mem_sortProxies {q : Proxy} {l : List Proxy} (h : q ∈ sortProxies l) :
    q ∈ l := by
  induction l with
  | nil => simpa [sortProxies] using h
  | cons x xs ih =>
      rw [sortProxies] at h
      rcases mem_sortInsert h with rfl | h1
      · exact List.mem_cons_self _ _
      · exact List.mem_cons_of_mem _ (ih h1)

/-- Leasing never changes the configuration. -/
theorem selectProxyForSession_config (pm : PoolState) :
    (selectProxyForSession pm).1.config = pm.config := by
  simp only [selectProxyForSession]
  split <;> rfl

/-- Leasing preserves the lease invariant: the selected endpoint was strictly
below the maximum before its count was incremented. -/
theorem selectProxyForSession_bounds (pm : PoolState)
    (hmax : 0 ≤ jsOrInt pm.config.maxSessionsPerProxy 3)
    (h : assignedInBounds (jsOrInt pm.config.maxSessionsPerProxy 3) pm.pool) :
    assignedInBounds (jsOrInt pm.config.maxSessionsPerProxy 3)
      (selectProxyForSession pm).1.pool := by
  simp only [selectProxyForSession]
  split
  · exact h
  · rename_i sel rest heq
    intro q hq
    rcases mem_jsMapSet hq with hq1 | rfl
    · exact h q hq1
    · have hsel : sel ∈ sortProxies ((pm.pool.filter (fun p => p.isHealthy)).filter
          (fun p => p.assignedSessions < jsOrInt pm.config.maxSessionsPerProxy 3)) := by
        rw [heq]
        exact List.mem_cons_self _ _
      have hsel2 := mem_sortProxies hsel
      have hlt : sel.assignedSessions < jsOrInt pm.config.maxSessionsPerProxy 3 := by
        have := List.of_mem_filter hsel2
        simpa using this
      have hmem : sel ∈ pm.pool := List.mem_of_mem_filter (List.mem_of_mem_filter hsel2)
      have hb := h sel hmem
      constructor
      · simp only
        omega
      · simp only
        omega

/-- Releasing preserves the lease invariant: the decrement is clamped at
zero and can only lower the count. -/
theorem releaseProxy_bounds (pm : PoolState) (proxyId : String)
    (hmax : 0 ≤ jsOrInt pm.config.maxSessionsPerProxy 3)
    (h : assignedInBounds (jsOrInt pm.config.maxSessionsPerProxy 3) pm.pool) :
    assignedInBounds (jsOrInt pm.config.maxSessionsPerProxy 3)
      (releaseProxy pm proxyId).pool := by
  rw [releaseProxy]
  split
  · rename_i proxy hget
    intro q hq
    rcases mem_jsMapSet hq with hq1 | rfl
    · exact h q hq1
    · have hb := h proxy (jsMapGet_mem hget)
      constructor
      · simp only
        omega
      · simp only
        omega
  · exact h

/-- Reporting a failure preserves the lease invariant: the failure decrement
is clamped at zero, and the replacement lease preserves it as well. -/
theorem handleProxyFailure_bounds (pm : PoolState) (proxyId : String)
    (hmax : 0 ≤ jsOrInt pm.config.maxSessionsPerProxy 3)
    (h : assignedInBounds (jsOrInt pm.config.maxSessionsPerProxy 3) pm.pool) :
    assignedInBounds (jsOrInt pm.config.maxSessionsPerProxy 3)
      (handleProxyFailure pm proxyId).1.pool := by
  rw [handleProxyFailure]
  split
  · rename_i proxy hget
    refine selectProxyForSession_bounds _ hmax ?_
    intro q hq
    rcases mem_jsMapSet hq with hq1 | rfl
    · exact h q hq1
    · have hb := h proxy (jsMapGet_mem hget)
      constructor
      · simp only
        omega
      · simp only
        omega
  · exact selectProxyForSession_bounds _ hmax h

/-- The delayed re-check preserves the lease invariant: it never changes an
assigned count, it only re-marks health, resets the failure counter, deletes
and re-inserts. -/
theorem recheckProxy_bounds (pm : PoolState) (proxyId : String)
    (probeHealthy : Bool) (probeLatency : Int)
    (hmax : 0 ≤ jsOrInt pm.config.maxSessionsPerProxy 3)
    (h : assignedInBounds (jsOrInt pm.config.maxSessionsPerProxy 3) pm.pool) :
    assignedInBounds (jsOrInt pm.config.maxSessionsPerProxy 3)
      (recheckProxy pm proxyId probeHealthy probeLatency).pool := by
  rw [recheckProxy]
  split
  · exact h
  · rename_i proxy hget
    have hb := h proxy (jsMapGet_mem hget)
    by_cases hp : probeHealthy = true
    · rw [if_pos hp]
      intro q hq
      rcases mem_jsMapSet hq with hq1 | rfl
      · exact h q hq1
      · exact hb
    · rw [if_neg hp]
      intro q hq
      rcases mem_jsMapSet hq with hq1 | rfl
      · by_cases hd : jsOrInt pm.config.maxFailuresBeforeRemoval 3 ≤ proxy.consecutiveFailures
        · rw [if_pos hd] at hq1
          exact h q ((jsMapDelete_sublist Proxy.id pm.pool proxyId).mem hq1)
        · rw [if_neg hd] at hq1
          exact h q hq1
      · exact hb

/-- No pool operation changes the configuration. -/
theorem applyPoolOp_config (pm : PoolState) (op : PoolOp) :
    (applyPoolOp pm op).config = pm.config := by
  cases op with
  | lease => exact selectProxyForSession_config pm
  | release i =>
      rw [applyPoolOp, releaseProxy]
      split <;> rfl
  | reportFailure i =>
      rw [applyPoolOp, handleProxyFailure]
      split
      · exact selectProxyForSession_config _
      · exact selectProxyForSession_config _
  | recheck i hh ll =>
      rw [applyPoolOp, recheckProxy]
      split
      · rfl
      · split <;> rfl
  | tick t => rfl

/-- Every single pool operation preserves the lease invariant. -/
theorem applyPoolOp_bounds (pm : PoolState) (op : PoolOp)
    (hmax : 0 ≤ jsOrInt pm.config.maxSessionsPerProxy 3)
    (h : assignedInBounds (jsOrInt pm.config.maxSessionsPerProxy 3) pm.pool) :
    assignedInBounds (jsOrInt pm.config.maxSessionsPerProxy 3) (applyPoolOp pm op).pool := by
  cases op with
  | lease => exact selectProxyForSession_bounds pm hmax h
  | release i => exact releaseProxy_bounds pm i hmax h
  | reportFailure i => exact handleProxyFailure_bounds pm i hmax h
  | recheck i hh ll => exact recheckProxy_bounds pm i hh ll hmax h
  | tick t => exact h

/-- Sequences of pool operations preserve the lease invariant. -/
theorem applyPoolOps_bounds (ops : List PoolOp) (pm : PoolState)
    (hmax : 0 ≤ jsOrInt pm.config.maxSessionsPerProxy 3)
    (h : assignedInBounds (jsOrInt pm.config.maxSessionsPerProxy 3) pm.pool) :
    assignedInBounds (jsOrInt pm.config.maxSessionsPerProxy 3) (applyPoolOps pm ops).pool := by
  induction ops generalizing pm with
  | nil => exact h
  | cons op ops ih =>
      rw [applyPoolOps, List.foldl_cons]
      have hcfg := applyPoolOp_config pm op
      have h1 := applyPoolOp_bounds pm op hmax h
      have := ih (applyPoolOp pm op) (by rw [hcfg]; exact hmax) (by rw [hcfg]; exact h1)
      rw [applyPoolOps] at this
      rw [← hcfg]
      exact this

/-- An initialized pool satisfies the lease invariant: every admitted
candidate enters with an assigned count of zero. -/
theorem initializePool_bounds (cfg : PoolConfig) (candidates : List Candidate)
    (hmax : 0 ≤ jsOrInt cfg.maxSessionsPerProxy 3) :
    assignedInBounds (jsOrInt cfg.maxSessionsPerProxy 3) (initializePool cfg candidates).pool := by
  rw [initializePool]
  simp only
  have general : ∀ (cs : List Candidate) (acc : List Proxy),
      assignedInBounds (jsOrInt cfg.maxSessionsPerProxy 3) acc →
      assignedInBounds (jsOrInt cfg.maxSessionsPerProxy 3)
        (cs.foldl (fun acc c => jsMapSet Proxy.id acc (admitCandidate c)) acc) := by
    intro cs
    induction cs with
    | nil => intro acc hacc; exact hacc
    | cons c cs ih =>
        intro acc hacc
        rw [List.foldl_cons]
        refine ih _ ?_
        intro q hq
        rcases mem_jsMapSet hq with hq1 | rfl
        · exact hacc q hq1
        · exact ⟨le_refl 0, hmax⟩
  exact general candidates [] (by intro q hq; simp at hq)

/-- C2: starting from an initialized pool, after any finite sequence of
lease (`selectProxyForSession`), release (`releaseProxy`), report-failure
(`handleProxyFailure`, including its replacement lease) and delayed
re-check steps, every endpoint's assigned-session count stays within
bounds: never negative and never above the effective `maxSessionsPerProxy`
(`proxyConfig.maxSessionsPerProxy || 3`). -/
theorem pool_assigned_in_bounds (cfg : PoolConfig) (candidates : List Candidate)
    (ops : List PoolOp)
    (hmax : 0 ≤ jsOrInt cfg.maxSessionsPerProxy 3) :
    assignedInBounds (jsOrInt cfg.maxSessionsPerProxy 3)
      (applyPoolOps (initializePool cfg candidates) ops).pool := by
  exact applyPoolOps_bounds ops (initializePool cfg candidates) hmax
    (initializePool_bounds cfg candidates hmax)

/-- A pool configuration with a per-endpoint maximum of two sessions. -/
def c2Config : PoolConfig := { maxSessionsPerProxy := some 2 }

/-- Two endpoint candidates that pass their initial probe. -/
def c2Candidates : List Candidate :=
  [{ id := "proxy1", host := "proxy1.example.com", port := 8080,
     probeHealthy := true, probeLatency := 100 },
   { id := "proxy2", host := "proxy2.example.com", port := 8081,
     probeHealthy := true, probeLatency := 120 }]

/-- A mixed operation sequence: three leases, a release, a reported failure
with its replacement lease and delayed unhealthy re-check, then one more
lease attempt. -/
def c2Ops : List PoolOp :=
  [PoolOp.lease, PoolOp.lease, PoolOp.lease, PoolOp.release "proxy1",
   PoolOp.reportFailure "proxy2", PoolOp.recheck "proxy2" false (-1), PoolOp.lease]

/-- The saturated first endpoint as it stands after `c2Ops`. -/
def c2FinalProxy : Proxy :=
  { id := "proxy1", host := "proxy1.example.com", port := 8080, isHealthy := true,
    latency := 100, assignedSessions := 2, lastUsed := some 0, consecutiveFailures := 0 }

/-- C2, witness: the invariant applied to the concrete scenario, then read
off at the endpoint that reached the maximum. -/
theorem pool_assigned_in_bounds_witness :
    0 ≤ jsOrInt c2Config.maxSessionsPerProxy 3
  ∧ c2FinalProxy ∈ (applyPoolOps (initializePool c2Config c2Candidates) c2Ops).pool
  ∧ 0 ≤ c2FinalProxy.assignedSessions
  ∧ c2FinalProxy.assignedSessions ≤ jsOrInt c2Config.maxSessionsPerProxy 3 :=
  ⟨by decide, by decide,
   (pool_assigned_in_bounds c2Config c2Candidates c2Ops (by decide) c2FinalProxy (by decide)).1,
   (pool_assigned_in_bounds c2Config c2Candidates c2Ops (by decide) c2FinalProxy (by decide)).2⟩

/-! ## Claim C8 -/

/-- A map with no entry under key `i` has an empty filter for `i`. -/
theorem filter_key_eq_nil {key : α → String} {m : List α} {i : String}
    (h : i ∉ m.map key) : m.filter (fun t => key t == i) = [] := by
  rw [List.filter_eq_nil_iff]
  intro t ht
  simp only [beq_iff_eq]
  intro he
  exact h (he ▸ List.mem_map_of_mem key ht)

/-- Writing a key into a map with distinct keys leaves exactly one entry
under that key: the written one. -/
theorem jsMapSet_filter_self {key : α → String} {m : List α} (x : α)
    (hnd : (m.map key).Nodup) :
    (jsMapSet key m x).filter (fun t => key t == key x) = [x] := by
  induction m with
  | nil => simp [jsMapSet]
  | cons t ts ih =>
      rw [List.map_cons, List.nodup_cons] at hnd
      rw [jsMapSet]
      by_cases hc : (key t == key x) = true
      · rw [if_pos hc, List.filter_cons_of_pos (by simp), filter_key_eq_nil]
        have : key t = key x := by simpa using hc
        rw [← this]
        exact hnd.1
      · rw [if_neg hc, List.filter_cons_of_neg (by simpa using hc), ih hnd.2]

/-- Writing one key does not change the entries filed under another key. -/
theorem jsMapSet_filter_other {key : α → String} {m : List α} {x : α} {i : String}
    (hne : key x ≠ i) :
    (jsMapSet key m x).filter (fun t => key t == i) = m.filter (fun t => key t == i) := by
  induction m with
  | nil => simp [jsMapSet, hne]
  | cons t ts ih =>
      rw [jsMapSet]
      by_cases hc : (key t == key x) = true
      · have htx : key t = key x := by simpa using hc
        rw [if_pos hc, List.filter_cons, List.filter_cons]
        rw [htx]
        simp only [beq_iff_eq, hne, decide_False]
        rfl
      · rw [if_neg hc, List.filter_cons, List.filter_cons, ih]

/-- Writing preserves distinctness of the keys. -/
theorem jsMapSet_nodup_keys {key : α → String} {m : List α} (x : α)
    (hnd : (m.map key).Nodup) :
    ((jsMapSet key m x).map key).Nodup := by
  induction m with
  | nil => simp [jsMapSet]
  | cons t ts ih =>
      rw [List.map_cons, List.nodup_cons] at hnd
      rw [jsMapSet]
      by_cases hc : (key t == key x) = true
      · have htx : key t = key x := by simpa using hc
        rw [if_pos hc, List.map_cons, List.nodup_cons]
        exact ⟨htx ▸ hnd.1, hnd.2⟩
      · rw [if_neg hc, List.map_cons, List.nodup_cons]
        constructor
        · intro hmem
          rcases List.mem_map.mp hmem with ⟨u, hu, hku⟩
          rcases mem_jsMapSet hu with hu1 | rfl
          · exact hnd.1 (hku ▸ List.mem_map_of_mem key hu1)
          · exact hc (by simp [hku])
        · exact ih hnd.2

/-- The combine loop preserves distinctness of the session ids. -/
theorem combineSessions_nodup_keys (liveSessions : List Session) (acc : List Session)
    (hnd : (acc.map Session.id).Nodup) :
    (((liveSessions.foldl combineStep acc).map Session.id)).Nodup := by
  induction liveSessions generalizing acc with
  | nil => exact hnd
  | cons u us ih =>
      rw [List.foldl_cons]
      exact ih _ (jsMapSet_nodup_keys u hnd)

/-- Steps for other ids do not change the entries filed under `i`. -/
theorem combineSessions_filter_untouched (l : List Session) (acc : List Session)
    (i : String) (h : ∀ u ∈ l, Session.id u ≠ i) :
    (l.foldl combineStep acc).filter (fun t => t.id == i)
      = acc.filter (fun t => t.id == i) := by
  induction l generalizing acc with
  | nil => rfl
  | cons u us ih =>
      rw [List.foldl_cons]
      rw [ih _ (fun v hv => h v (List.mem_cons_of_mem _ hv))]
      exact jsMapSet_filter_other (h u (List.mem_cons_self _ _))

/-- After the combine loop, a live session is the single entry under its id. -/
theorem combineSessions_filter_live (persisted liveSessions : List Session)
    (hp : (persisted.map Session.id).Nodup) (hl : (liveSessions.map Session.id).Nodup)
    (s : Session) (hs : s ∈ liveSessions) :
    (combineSessions persisted liveSessions).filter (fun t => t.id == s.id) = [s] := by
  rcases List.append_of_mem hs with ⟨l1, l2, rfl⟩
  rw [combineSessions, List.foldl_append, List.foldl_cons]
  have hl2 : ∀ u ∈ l2, Session.id u ≠ s.id := by
    intro u hu he
    rw [List.map_append, List.map_cons] at hl
    have := (List.nodup_append.mp hl).2.1
    rw [List.nodup_cons] at this
    exact this.1 (he ▸ List.mem_map_of_mem Session.id hu)
  rw [combineSessions_filter_untouched l2 _ s.id hl2]
  have hacc : (((l1.foldl combineStep persisted)).map Session.id).Nodup :=
    combineSessions_nodup_keys l1 persisted hp
  rw [combineStep]
  exact jsMapSet_filter_self s hacc

/-- C8: the summary's merge of persisted records with the live map counts a
session id present in both sources exactly once, the live version taking
precedence over the persisted one, and the summary is computed from that
combined list — a deterministic function of the two input collections. -/
theorem summary_merge_live_precedence (persisted liveSessions : List Session)
    (hp : (persisted.map Session.id).Nodup) (hl : (liveSessions.map Session.id).Nodup)
    (s : Session) (hs : s ∈ liveSessions) (hboth : s.id ∈ persisted.map Session.id) :
    (combineSessions persisted liveSessions).filter (fun t => t.id == s.id) = [s]
  ∧ ((combineSessions persisted liveSessions).filter (fun t => t.id == s.id)).length = 1
  ∧ (getSessionStatsSummary persisted liveSessions).totalTrackedSessions
      = (combineSessions persisted liveSessions).length := by
  have h1 := combineSessions_filter_live persisted liveSessions hp hl s hs
  exact ⟨h1, by rw [h1]; rfl, rfl⟩

/-- The live (newer) version of session `s1`. -/
def c8LiveSession : Session :=
  { id := "s1", account := "alice@example.com", status := "completed",
    startTime := 0, lastUpdate := 9, stats := ⟨2, 0, 300⟩ }

/-- Persisted records: a stale copy of `s1` and an unrelated `s2`. -/
def c8Persisted : List Session :=
  [{ id := "s1", account := "alice@example.com", status := "running",
     startTime := 0, lastUpdate := 3, stats := ⟨1, 0, 120⟩ },
   { id := "s2", account := "bob@example.com", status := "failed",
     startTime := 1, lastUpdate := 4, stats := ⟨0, 1, 60⟩ }]

/-- The live map contents. -/
def c8Live : List Session := [c8LiveSession]

/-- C8, witness: the id present in both sources appears exactly once in the
combined list, as the live version. -/
theorem summary_merge_live_precedence_witness :
    (c8Persisted.map Session.id).Nodup
  ∧ (c8Live.map Session.id).Nodup
  ∧ c8LiveSession ∈ c8Live
  ∧ c8LiveSession.id ∈ c8Persisted.map Session.id
  ∧ (combineSessions c8Persisted c8Live).filter (fun t => t.id == c8LiveSession.id)
      = [c8LiveSession] :=
  ⟨by decide, by decide, by decide, by decide,
   (summary_merge_live_precedence c8Persisted c8Live (by decide) (by decide)
     c8LiveSession (by decide) (by decide)).1⟩

/-! ## Claim C10 -/

/-- Reading a written key returns the written entry, key given by value. -/
theorem jsMapGet_set_of_key_eq {key : α → String} (m : List α) {x : α} {i : String}
    (h : key x = i) : jsMapGet key (jsMapSet key m x) i = some x := by
  rw [← h]
  exact jsMapGet_jsMapSet_self key m x

/-- Deleting a written key deletes the key outright, key given by value. -/
theorem jsMapDelete_set_of_key_eq {key : α → String} (m : List α) {x : α} {i : String}
    (h : key x = i) : jsMapDelete key (jsMapSet key m x) i = jsMapDelete key m i := by
  rw [← h]
  exact jsMapDelete_jsMapSet key m x

/-- The live-map effect of a status update on an unknown session: none. -/
theorem updateSessionStatus_sessions_none {st : ManagerState} {sessionId : String}
    (h : jsMapGet Session.id st.sessions sessionId = none)
    (status reason : String) (now : Nat) :
    (updateSessionStatus st sessionId status reason now).sessions = st.sessions := by
  rw [updateSessionStatus, h]

/-- The live-map effect of a status update on a known session: overwrite. -/
theorem updateSessionStatus_sessions_some {st : ManagerState} {sessionId : String} {u : Session}
    (h : jsMapGet Session.id st.sessions sessionId = some u)
    (status reason : String) (now : Nat) :
    (updateSessionStatus st sessionId status reason now).sessions
      = jsMapSet Session.id st.sessions (u.updateStatus status now) := by
  rw [updateSessionStatus, h]

/-- The live-map effect of a status update on an explicitly given state. -/
theorem updateSessionStatus_sessions_mk (x y : List Session) (z : List SessionEvent)
    {sessionId : String} {u : Session}
    (h : jsMapGet Session.id x sessionId = some u)
    (status reason : String) (now : Nat) :
    (updateSessionStatus ⟨x, y, z⟩ sessionId status reason now).sessions
      = jsMapSet Session.id x (u.updateStatus status now) :=
  @updateSessionStatus_sessions_some ⟨x, y, z⟩ _ _ h status reason now

/-- Cleanup always removes exactly the session's entry from the live map,
whatever intermediate writes it performs under the same id. -/
theorem cleanupSession_sessions (st : ManagerState)
    (sessionId finalStatus reason : String) (now : Nat) :
    (cleanupSession st sessionId finalStatus reason now).sessions
      = jsMapDelete Session.id st.sessions sessionId := by
  rw [cleanupSession]
  cases hget : jsMapGet Session.id st.sessions sessionId with
  | none => exact (jsMapDelete_of_get_none hget).symm
  | some t =>
      have hkey : Session.id t = sessionId := jsMapGet_key hget
      have hkeyW : Session.id ({ t with endTime := some now, duration := some ((now : Int) - (t.startTime : Int)) } : Session) = sessionId := hkey
      have hkeyW2 : Session.id (({ t with endTime := some now, duration := some ((now : Int) - (t.startTime : Int)) } : Session).updateStatus finalStatus now) = sessionId := hkey
      dsimp only
      rw [updateSessionStatus_sessions_mk _ _ _ (jsMapGet_set_of_key_eq st.sessions hkeyW)]
      rw [jsMapDelete_set_of_key_eq _ hkeyW2, jsMapDelete_set_of_key_eq _ hkeyW]

/-- The net effect of one stop-loop step on the live map is deletion of the
chosen session's id. -/
theorem stopStep_sessions (now : Nat) (acc : ManagerState) (s : Session) :
    (stopStep now acc s).sessions = jsMapDelete Session.id acc.sessions s.id := by
  rw [stopStep]
  rw [cleanupSession_sessions]
  cases hget : jsMapGet Session.id acc.sessions s.id with
  | none => rw [updateSessionStatus_sessions_none hget]
  | some t =>
      have hkey0 : Session.id t = s.id := jsMapGet_key hget
      have hkey : Session.id (t.updateStatus "stopped" now) = s.id := hkey0
      rw [updateSessionStatus_sessions_some hget]
      rw [jsMapDelete_set_of_key_eq _ hkey]

/-- A status update only appends to the event log. -/
theorem updateSessionStatus_events_mono (st : ManagerState)
    (sessionId status reason : String) (now : Nat) :
    ∃ tl, (updateSessionStatus st sessionId status reason now).events
      = st.events ++ tl := by
  rw [updateSessionStatus]
  cases hget : jsMapGet Session.id st.sessions sessionId with
  | none => exact ⟨[], by simp⟩
  | some t => exact ⟨_, rfl⟩

/-- Cleanup only appends to the event log. -/
theorem cleanupSession_events_mono (st : ManagerState)
    (sessionId finalStatus reason : String) (now : Nat) :
    ∃ tl, (cleanupSession st sessionId finalStatus reason now).events
      = st.events ++ tl := by
  rw [cleanupSession]
  cases hget : jsMapGet Session.id st.sessions sessionId with
  | none => exact ⟨[], by simp⟩
  | some t =>
      exact updateSessionStatus_events_mono _ sessionId finalStatus reason now

/-- One stop-loop step only appends to the event log. -/
theorem stopStep_events_mono (now : Nat) (acc : ManagerState) (s : Session) :
    ∃ tl, (stopStep now acc s).events = acc.events ++ tl := by
  rw [stopStep]
  rcases cleanupSession_events_mono (updateSessionStatus acc s.id "stopped"
    "Scheduled stop by Scheduler" now) s.id "stopped" "Scheduled stop by Scheduler" now
    with ⟨tl2, h2⟩
  rcases updateSessionStatus_events_mono acc s.id "stopped"
    "Scheduled stop by Scheduler" now with ⟨tl1, h1⟩
  exact ⟨tl1 ++ tl2, by rw [h2, h1, List.append_assoc]⟩

/-- Events already recorded survive the rest of the stop loop. -/
theorem stopFold_events_mono (now : Nat) (l : List Session) (acc : ManagerState)
    {e : SessionEvent} (he : e ∈ acc.events) :
    e ∈ (l.foldl (stopStep now) acc).events := by
  induction l generalizing acc with
  | nil => exact he
  | cons c cs ih =>
      rw [List.foldl_cons]
      refine ih _ ?_
      rcases stopStep_events_mono now acc c with ⟨tl, htl⟩
      rw [htl]
      exact List.mem_append_left _ he

/-- A stop-loop step on a live session records a `status_changed` event to
`stopped` for it. -/
theorem stopStep_records_event (now : Nat) (acc : ManagerState) (s t : Session)
    (hget : jsMapGet Session.id acc.sessions s.id = some t) :
    ∃ e ∈ (stopStep now acc s).events,
      e.sessionId = s.id ∧ e.event = "status_changed" ∧ e.newStatus = "stopped" := by
  rw [stopStep]
  have hev : (updateSessionStatus acc s.id "stopped" "Scheduled stop by Scheduler" now).events
      = acc.events ++
        [{ sessionId := s.id, event := "status_changed", oldStatus := t.status,
           newStatus := "stopped", reason := "Scheduled stop by Scheduler" }] := by
    rw [updateSessionStatus, hget]
  rcases cleanupSession_events_mono (updateSessionStatus acc s.id "stopped"
    "Scheduled stop by Scheduler" now) s.id "stopped" "Scheduled stop by Scheduler" now
    with ⟨tl, htl⟩
  refine ⟨{ sessionId := s.id, event := "status_changed", oldStatus := t.status,
            newStatus := "stopped", reason := "Scheduled stop by Scheduler" }, ?_, rfl, rfl, rfl⟩
  rw [htl, hev]
  exact List.mem_append_left _ (List.mem_append_right _ (List.mem_singleton.mpr rfl))

/-- String equality tests are symmetric. -/
theorem strBeq_comm (x y : String) : (x == y) = (y == x) := by
  by_cases h : x = y
  · rw [h]
  · have h1 : (x == y) = false := by simpa using h
    have h2 : (y == x) = false := by simpa using (Ne.symm h)
    rw [h1, h2]

/-- The stop loop over a list of distinct live sessions removes exactly
those sessions from the live map and records a stop event for each. -/
theorem stopFold_spec (now : Nat) (l : List Session) (acc : ManagerState)
    (hmem : ∀ s ∈ l, s ∈ acc.sessions)
    (hnd : (acc.sessions.map Session.id).Nodup)
    (hlnd : (l.map Session.id).Nodup) :
    (l.foldl (stopStep now) acc).sessions
      = acc.sessions.filter (fun t => !(l.any (fun c => c.id == t.id)))
  ∧ ∀ s ∈ l, ∃ e ∈ (l.foldl (stopStep now) acc).events,
      e.sessionId = s.id ∧ e.event = "status_changed" ∧ e.newStatus = "stopped" := by
  induction l generalizing acc with
  | nil =>
      refine ⟨?_, by intro s hs; simp at hs⟩
      simp
  | cons c cs ih =>
      rw [List.map_cons, List.nodup_cons] at hlnd
      have hcs_ne : ∀ s ∈ cs, Session.id s ≠ c.id := by
        intro s hs he
        exact hlnd.1 (he ▸ List.mem_map_of_mem Session.id hs)
      have hacc' : (stopStep now acc c).sessions = jsMapDelete Session.id acc.sessions c.id :=
        stopStep_sessions now acc c
      have hmem' : ∀ s ∈ cs, s ∈ (stopStep now acc c).sessions := by
        intro s hs
        rw [hacc']
        exact mem_jsMapDelete_of_ne (hmem s (List.mem_cons_of_mem _ hs)) (hcs_ne s hs)
      have hnd' : ((stopStep now acc c).sessions.map Session.id).Nodup := by
        rw [hacc']
        exact hnd.sublist (List.Sublist.map Session.id (jsMapDelete_sublist Session.id _ _))
      rcases ih (stopStep now acc c) hmem' hnd' hlnd.2 with ⟨ihs, ihe⟩
      constructor
      · rw [List.foldl_cons, ihs, hacc', jsMapDelete_eq_filter hnd, List.filter_filter]
        refine List.filter_congr ?_
        intro t ht
        rw [List.any_cons]
        rw [Bool.not_or, Bool.and_comm, strBeq_comm c.id t.id]
      · intro s hs
        rcases List.mem_cons.mp hs with rfl | hs1
        · have hget : jsMapGet Session.id acc.sessions s.id = some s :=
            jsMapGet_of_mem_nodup hnd (hmem s (List.mem_cons_self _ _))
          rcases stopStep_records_event now acc s s hget with ⟨e, he, hprops⟩
          refine ⟨e, ?_, hprops⟩
          rw [List.foldl_cons]
          exact stopFold_events_mono now cs _ he
        · rw [List.foldl_cons]
          exact ihe s hs1

/-- Clamping the take count at the list length does not change the take. -/
theorem take_min_length (l : List α) (n : Nat) : l.take (min n l.length) = l.take n := by
  rcases le_total n l.length with h | h
  · rw [min_eq_left h]
  · rw [min_eq_right h, List.take_of_length_le h, List.take_of_length_le (le_refl _)]

/-- C10: `stopSomeSessions(count)` stops exactly
`min(count, number of running/idle/initializing/paused sessions)` sessions,
chosen deterministically as the first such sessions in the map's insertion
order; each chosen session is removed from the live map with a
`status_changed` event to `stopped`, and sessions in terminal or unhealthy
states are never selected. -/
theorem stopSomeSessions_spec (st : ManagerState) (count now : Nat)
    (hnd : (st.sessions.map Session.id).Nodup) :
    ((st.sessions.filter stoppableStatus).take count).length
        = min count (st.sessions.filter stoppableStatus).length
  ∧ (∀ s ∈ (st.sessions.filter stoppableStatus).take count, stoppableStatus s = true)
  ∧ (stopSomeSessions st count now).sessions
      = st.sessions.filter (fun t =>
          !(((st.sessions.filter stoppableStatus).take count).any (fun c => c.id == t.id)))
  ∧ ∀ s ∈ (st.sessions.filter stoppableStatus).take count,
      ∃ e ∈ (stopSomeSessions st count now).events,
        e.sessionId = s.id ∧ e.event = "status_changed" ∧ e.newStatus = "stopped" := by
  have hchosen_sub : ∀ s ∈ (st.sessions.filter stoppableStatus).take count,
      s ∈ st.sessions := by
    intro s hs
    exact List.mem_of_mem_filter (List.take_subset _ _ hs)
  have hchosen_nd : (((st.sessions.filter stoppableStatus).take count).map Session.id).Nodup :=
    hnd.sublist (List.Sublist.map Session.id
      ((List.take_sublist _ _).trans (List.filter_sublist _)))
  refine ⟨List.length_take _ _, ?_, ?_, ?_⟩
  · intro s hs
    exact List.of_mem_filter (List.take_subset _ _ hs)
  all_goals
    simp only [stopSomeSessions, getAllSessions]
    by_cases hlen : (st.sessions.filter stoppableStatus).length = 0
  · rw [if_pos hlen]
    rw [List.length_eq_zero.mp hlen]
    simp
  · rw [if_neg hlen, take_min_length]
    exact (stopFold_spec now _ st hchosen_sub hnd hchosen_nd).1
  · rw [if_pos hlen]
    intro s hs
    rw [List.length_eq_zero.mp hlen] at hs
    simp at hs
  · rw [if_neg hlen, take_min_length]
    exact (stopFold_spec now _ st hchosen_sub hnd hchosen_nd).2

/-- A live map with two stoppable sessions interleaved with a terminal and
an unhealthy one. -/
def c10State : ManagerState :=
  { sessions :=
      [{ id := "s1", account := "a1", status := "running",
         startTime := 0, lastUpdate := 0, stats := ⟨0, 0, 0⟩ },
       { id := "s2", account := "a2", status := "completed",
         startTime := 0, lastUpdate := 0, stats := ⟨1, 0, 60⟩ },
       { id := "s3", account := "a3", status := "idle",
         startTime := 0, lastUpdate := 0, stats := ⟨0, 0, 0⟩ },
       { id := "s4", account := "a4", status := "unhealthy",
         startTime := 0, lastUpdate := 0, stats := ⟨0, 1, 30⟩ }],
    store := [], events := [] }

/-- C10, witness: stopping two sessions removes exactly the first two
stoppable ones (`s1` and `s3`) from the live map. -/
theorem stopSomeSessions_spec_witness :
    (c10State.sessions.map Session.id).Nodup
  ∧ (stopSomeSessions c10State 2 7).sessions
      = c10State.sessions.filter (fun t =>
          !(((c10State.sessions.filter stoppableStatus).take 2).any (fun c => c.id == t.id))) :=
  ⟨by decide, (stopSomeSessions_spec c10State 2 7 (by decide)).2.2.1⟩

end Spotify
